import Mathlib

/-!
Verification of the snowblower advisor core against its specification.

The definitions below are shallow embeddings of the Python source:
`snowblower_advisor.py` (SnowblowerAdvisor methods) and `discord_bot.py`
(classification for embeds and the alert latch of SnowblowerBot.check_alerts).
Floats are modelled as rationals; a missing sample (Python None) is `none`;
a Python exception is modelled explicitly where a claim is about failure.
-/

/-- The eight cardinal labels, in the order of the source list
`directions` (N, NE, E, SE, S, SW, W, NW). -/
def directions : List String := ["N", "NE", "E", "SE", "S", "SW", "W", "NW"]

/-- Python `int(x)`: truncation toward zero. -/
def pyInt (q : ℚ) : ℤ := if 0 ≤ q then ⌊q⌋ else ⌈q⌉

/-- Python `a % m` on floats: floored modulo, `a - m * floor (a / m)`. -/
def pyMod (a m : ℚ) : ℚ := a - m * (⌊a / m⌋ : ℚ)

/-- `SnowblowerAdvisor.get_direction_from_degrees`:
`index = int((degrees + 22.5) / 45) % 8; return directions[index]`. -/
def get_direction_from_degrees (degrees : ℚ) : String :=
  directions.getD ((pyInt ((degrees + 22.5) / 45)) % 8).toNat "N"

/-- `SnowblowerAdvisor.get_recommended_blow_direction`: the wind-from label and
the label of `(wind_direction_degrees + 180) % 360`. -/
def get_recommended_blow_direction (wind_direction_degrees : ℚ) : String × String :=
  let wind_from := get_direction_from_degrees wind_direction_degrees
  let blow_to_degrees := pyMod (wind_direction_degrees + 180) 360
  let blow_to := get_direction_from_degrees blow_to_degrees
  (wind_from, blow_to)

/-- `SnowblowerAdvisor.should_snowblow`: sums the non-missing hourly samples and
compares (inclusively) against the configured accumulation threshold.
`current_snowfall` is an argument of the source method that it never uses. -/
def should_snowblow (accumulation_threshold current_snowfall : ℚ)
    (hourly_snowfall : List (Option ℚ)) : Bool × ℚ :=
  let total_accumulation := (hourly_snowfall.filterMap id).sum
  (decide (accumulation_threshold ≤ total_accumulation), total_accumulation)

/-- `SnowblowerAdvisor.is_wind_safe_for_snowblowing`: the if/elif chain of the
source, in its literal order `w ≤ 10`, `w ≤ 15`, `w ≤ max_wind_speed`,
`w ≤ 35`, else dangerous. -/
def is_wind_safe_for_snowblowing (max_wind_speed wind_speed : ℚ) : Bool × String :=
  if wind_speed ≤ 10 then (true, "Excellent - calm conditions")
  else if wind_speed ≤ 15 then (true, "Good - light winds")
  else if wind_speed ≤ max_wind_speed then (true, "Fair - moderate winds, exercise caution")
  else if wind_speed ≤ 35 then (false, "Too windy - snow will blow back, wait for calmer conditions")
  else (false, "Dangerous - high winds, do not snowblow")

/-- The four advisory display states of `format_snowblower_advice`. -/
inductive AdvisoryState where
  | blowNow
  | waitState
  | forecastAlert
  | allClear
deriving DecidableEq

/-- The classification chain of `format_snowblower_advice` in `discord_bot.py`:
`if should_blow and wind_safe`, `elif should_blow and not wind_safe`,
`elif forecast_will_exceed`, `else`. -/
def format_snowblower_advice_state (should_blow wind_safe forecast_will_exceed : Bool) :
    AdvisoryState :=
  if should_blow && wind_safe then .blowNow
  else if should_blow && !wind_safe then .waitState
  else if forecast_will_exceed then .forecastAlert
  else .allClear

/-- The `avg_wind_dir` expression of `get_forecast_analysis` (line 174):
`sum(w for w in dirs if w is not None) / len([w for w in dirs if w is not None])
if dirs else 0`.  The guard tests emptiness of the whole slice, not of the list
of non-missing bearings; a ZeroDivisionError is modelled as `none`. -/
def avg_wind_dir (next_24_hours_wind_dir : List (Option ℚ)) : Option ℚ :=
  if next_24_hours_wind_dir.isEmpty then some 0
  else
    let vals := next_24_hours_wind_dir.filterMap id
    if vals.length = 0 then none
    else some (vals.sum / (vals.length : ℚ))

lemma filterMap_id_map_none (s : List (Option ℚ)) :
    ((s.map fun _ => (none : Option ℚ)).filterMap id) = [] := by
  induction s with
  | nil => rfl
  | cons a t ih => simp [ih]

/-- C1: for every combination of (shouldBlow, windSafe, willExceedThreshold)
the four-way advisory classification, tested in the priority order of the
source, assigns exactly one of the four states: it yields Blow-now iff
shouldBlow and windSafe, Wait iff shouldBlow and not windSafe, Forecast-alert
iff not shouldBlow and willExceedThreshold, and All-clear otherwise, so the
classification is exhaustive and mutually exclusive. -/
theorem C1_classification (b w e : Bool) :
    (format_snowblower_advice_state b w e = .blowNow ↔ (b = true ∧ w = true))
    ∧ (format_snowblower_advice_state b w e = .waitState ↔ (b = true ∧ w = false))
    ∧ (format_snowblower_advice_state b w e = .forecastAlert ↔ (b = false ∧ e = true))
    ∧ (format_snowblower_advice_state b w e = .allClear ↔ (b = false ∧ e = false)) := by
  cases b <;> cases w <;> cases e <;> decide

/-- C7: `should_snowblow` returns the pair (total ≥ threshold, total) where
total sums the non-missing samples; missing samples contribute zero, the empty
and all-missing lists total 0, and the comparison is inclusive. -/
theorem C7_should_snowblow (t c : ℚ) (s : List (Option ℚ)) :
    (should_snowblow t c s).2 = (s.filterMap id).sum
    ∧ ((should_snowblow t c s).1 = true ↔ t ≤ (s.filterMap id).sum)
    ∧ (should_snowblow t c []).2 = 0
    ∧ (should_snowblow t c (s.map fun _ => none)).2 = 0 := by
  refine ⟨rfl, ?_, rfl, ?_⟩
  · simp [should_snowblow]
  · simp [should_snowblow, filterMap_id_map_none]

/-- C5: the forecast average wind bearing is not total: on a non-empty slice
whose bearings are all missing, the source divides by zero (modelled as
`none`), while on an empty slice it returns 0 and on ordinary data it returns
the arithmetic mean of the non-missing bearings. -/
theorem C5_avg_wind_dir_div_by_zero :
    avg_wind_dir [none] = none
    ∧ avg_wind_dir [] = some 0
    ∧ avg_wind_dir [some 10, none, some 20] = some 15 := by
  refine ⟨rfl, rfl, ?_⟩
  simp [avg_wind_dir]
  norm_num

lemma pyInt_of_nonneg (q : ℚ) (h : 0 ≤ q) : pyInt q = ⌊q⌋ := if_pos h

lemma pyInt_bounds (q : ℚ) : ⌊q⌋ ≤ pyInt q ∧ pyInt q ≤ ⌊q⌋ + 1 := by
  unfold pyInt
  split
  · exact ⟨le_refl _, by omega⟩
  · exact ⟨Int.floor_le_ceil q, Int.ceil_le_floor_add_one q⟩

lemma pyMod_nonneg (a m : ℚ) (hm : 0 < m) : 0 ≤ pyMod a m := by
  unfold pyMod
  have h := Int.floor_le (a / m)
  have h2 : m * (⌊a / m⌋ : ℚ) ≤ m * (a / m) := mul_le_mul_of_nonneg_left h (le_of_lt hm)
  have h3 : m * (a / m) = a := by field_simp
  linarith

lemma getD_distinct : ∀ i j : Fin 8, i ≠ j →
    directions.getD i.val "N" ≠ directions.getD j.val "N" := by decide

lemma getD_mem : ∀ i : Fin 8, directions.getD i.val "N" ∈ directions := by decide

lemma dirIndex_lt (q : ℚ) : ((pyInt q) % 8).toNat < 8 := by omega

/-- C9: `get_recommended_blow_direction` returns the pair whose second label is
the label of `(d + 180) mod 360`, and for every rational bearing `d` the
recommended blow-to label differs from the wind-from label. -/
theorem C9_blow_direction (d : ℚ) :
    get_recommended_blow_direction d
      = (get_direction_from_degrees d,
         get_direction_from_degrees (pyMod (d + 180) 360))
    ∧ (get_recommended_blow_direction d).2 ≠ (get_recommended_blow_direction d).1 := by
  have key : ((pyInt ((pyMod (d + 180) 360 + 22.5) / 45)) % 8).toNat
      ≠ ((pyInt ((d + 22.5) / 45)) % 8).toNat := by
    have he0 : 0 ≤ pyMod (d + 180) 360 := pyMod_nonneg _ _ (by norm_num)
    have hy : (pyMod (d + 180) 360 + 22.5) / 45
        = (d + 22.5) / 45 + ((4 - 8 * ⌊(d + 180) / 360⌋ : ℤ) : ℚ) := by
      unfold pyMod
      push_cast
      ring
    have hy0 : 0 ≤ (pyMod (d + 180) 360 + 22.5) / 45 :=
      div_nonneg (by linarith) (by norm_num)
    have hfy : pyInt ((pyMod (d + 180) 360 + 22.5) / 45)
        = ⌊(d + 22.5) / 45⌋ + (4 - 8 * ⌊(d + 180) / 360⌋) := by
      rw [pyInt_of_nonneg _ hy0, hy, Int.floor_add_int]
    have hb1 : ⌊(d + 22.5) / 45⌋ ≤ pyInt ((d + 22.5) / 45) := (pyInt_bounds _).1
    have hb2 : pyInt ((d + 22.5) / 45) ≤ ⌊(d + 22.5) / 45⌋ + 1 := (pyInt_bounds _).2
    omega
  refine ⟨rfl, ?_⟩
  show get_direction_from_degrees (pyMod (d + 180) 360) ≠ get_direction_from_degrees d
  unfold get_direction_from_degrees
  exact getD_distinct ⟨_, dirIndex_lt _⟩ ⟨_, dirIndex_lt _⟩ (Fin.ne_of_val_ne key)

/-- C8 amended: `get_direction_from_degrees` is total and always returns one of
the eight cardinal labels; the period-360 identity holds for every degree value
`d ≥ -22.5` (in particular on the meteorological domain [0, 360)), but not for
all reals, because the source truncates toward zero instead of normalizing the
input modulo 360 first. -/
theorem C8_total_and_periodic_on_domain (d : ℚ) :
    get_direction_from_degrees d ∈ directions
    ∧ ((-22.5 : ℚ) ≤ d →
        get_direction_from_degrees d = get_direction_from_degrees (d + 360)) := by
  constructor
  · unfold get_direction_from_degrees
    exact getD_mem ⟨_, dirIndex_lt _⟩
  · intro hd
    unfold get_direction_from_degrees
    have hx0 : 0 ≤ (d + 22.5) / 45 := div_nonneg (by linarith) (by norm_num)
    have hx1 : 0 ≤ (d + 360 + 22.5) / 45 := div_nonneg (by linarith) (by norm_num)
    have hy : (d + 360 + 22.5) / 45 = (d + 22.5) / 45 + ((8 : ℤ) : ℚ) := by
      push_cast
      ring
    have h8 : pyInt ((d + 360 + 22.5) / 45) = ⌊(d + 22.5) / 45⌋ + 8 := by
      rw [pyInt_of_nonneg _ hx1, hy, Int.floor_add_int]
    rw [pyInt_of_nonneg _ hx0, h8]
    congr 1
    omega

/-- C8 witness: the periodicity part of the amended claim holds at d = 45. -/
theorem C8_total_and_periodic_on_domain_witness :
    (-22.5 : ℚ) ≤ 45
    ∧ get_direction_from_degrees 45 = get_direction_from_degrees (45 + 360) :=
  ⟨by norm_num, (C8_total_and_periodic_on_domain 45).2 (by norm_num)⟩

/-- C8 counterexample: the claimed identity bearingToLabel(d) =
bearingToLabel(d + 360) fails at d = -30: the source maps -30 to N but 330
to NW, because int() truncates toward zero. -/
theorem C8_periodicity_counterexample :
    get_direction_from_degrees (-30) ≠ get_direction_from_degrees (-30 + 360) := by
  have h1 : pyInt ((-30 + 22.5) / 45) = 0 := by
    unfold pyInt
    rw [if_neg (by norm_num)]
    rw [Int.ceil_eq_iff]
    constructor <;> norm_num
  have h2 : pyInt ((-30 + 360 + 22.5) / 45) = 7 := by
    unfold pyInt
    rw [if_pos (by norm_num)]
    rw [Int.floor_eq_iff]
    constructor <;> norm_num
  unfold get_direction_from_degrees
  rw [h1, h2]
  decide

/-- Modelled from the spec, section 4.3 note: the four bounded bands attached
to their upper thresholds, with insertion placing each band by ascending
threshold value. -/
def insertBand (p : ℚ × Bool × String) :
    List (ℚ × Bool × String) → List (ℚ × Bool × String)
  | [] => [p]
  | q :: rest => if p.1 ≤ q.1 then p :: q :: rest else q :: insertBand p rest

/-- Modelled from the spec, section 4.3 note: insertion sort of the band list
by threshold value. -/
def sortBands : List (ℚ × Bool × String) → List (ℚ × Bool × String)
  | [] => []
  | p :: rest => insertBand p (sortBands rest)

/-- Modelled from the spec, section 4.3 note: return the first band whose
upper threshold bounds the wind speed, falling through to the dangerous
band. -/
def firstBand (w : ℚ) : List (ℚ × Bool × String) → Bool × String
  | [] => (false, "Dangerous - high winds, do not snowblow")
  | p :: rest => if w ≤ p.1 then p.2 else firstBand w rest

/-- Modelled from the spec, section 4.3 note: the wind classifier the claim
describes, with band order chosen by ascending threshold value instead of the
hardcoded literal order of the source. -/
def windBandAscending (max_safe w : ℚ) : Bool × String :=
  firstBand w (sortBands
    [(10, true, "Excellent - calm conditions"),
     (15, true, "Good - light winds"),
     (max_safe, true, "Fair - moderate winds, exercise caution"),
     (35, false, "Too windy - snow will blow back, wait for calmer conditions")])

/-- C3 counterexample: with max_safe = 40 and w = 30 the source classifier
(hardcoded literal check order) answers safe Fair, while the classifier the
claim describes (band order by ascending threshold value) answers unsafe
Too-windy, so the claim fails on the code at this input. -/
theorem C3_ascending_counterexample :
    is_wind_safe_for_snowblowing 40 30
      = (true, "Fair - moderate winds, exercise caution")
    ∧ windBandAscending 40 30
      = (false, "Too windy - snow will blow back, wait for calmer conditions")
    ∧ is_wind_safe_for_snowblowing 40 30 ≠ windBandAscending 40 30 := by
  refine ⟨by decide, by decide, by decide⟩

/-- C3 amended: the source checks its bands in the hardcoded literal order
`w ≤ 10`, `w ≤ 15`, `w ≤ max_safe`, `w ≤ 35`, else dangerous; whenever the
configured max_safe lies in [15, 35] the five bands of the table are disjoint
and the classifier returns exactly the band of the table: safe excellent on
[0, 10], safe good on (10, 15], safe fair on (15, max_safe], unsafe too-windy
on (max_safe, 35] and unsafe dangerous above 35. -/
theorem C3_literal_chain_matches_table (m w : ℚ) (h15 : 15 ≤ m) (h35 : m ≤ 35) :
    (0 ≤ w → w ≤ 10 →
      is_wind_safe_for_snowblowing m w = (true, "Excellent - calm conditions"))
    ∧ (10 < w → w ≤ 15 →
      is_wind_safe_for_snowblowing m w = (true, "Good - light winds"))
    ∧ (15 < w → w ≤ m →
      is_wind_safe_for_snowblowing m w = (true, "Fair - moderate winds, exercise caution"))
    ∧ (m < w → w ≤ 35 →
      is_wind_safe_for_snowblowing m w
        = (false, "Too windy - snow will blow back, wait for calmer conditions"))
    ∧ (35 < w →
      is_wind_safe_for_snowblowing m w
        = (false, "Dangerous - high winds, do not snowblow")) := by
  refine ⟨?_, ?_, ?_, ?_, ?_⟩
  · intro _ h1
    unfold is_wind_safe_for_snowblowing
    rw [if_pos h1]
  · intro h1 h2
    unfold is_wind_safe_for_snowblowing
    rw [if_neg (not_le.mpr h1), if_pos h2]
  · intro h2 h3
    unfold is_wind_safe_for_snowblowing
    rw [if_neg (not_le.mpr (lt_trans (by norm_num : (10:ℚ) < 15) h2)),
      if_neg (not_le.mpr h2), if_pos h3]
  · intro h3 h4
    have hw15 : 15 < w := lt_of_le_of_lt h15 h3
    unfold is_wind_safe_for_snowblowing
    rw [if_neg (not_le.mpr (lt_trans (by norm_num : (10:ℚ) < 15) hw15)),
      if_neg (not_le.mpr hw15), if_neg (not_le.mpr h3), if_pos h4]
  · intro h5
    have hwm : m < w := lt_of_le_of_lt h35 h5
    unfold is_wind_safe_for_snowblowing
    rw [if_neg (not_le.mpr (lt_trans (by norm_num : (10:ℚ) < 35) h5)),
      if_neg (not_le.mpr (lt_trans (by norm_num : (15:ℚ) < 35) h5)),
      if_neg (not_le.mpr hwm), if_neg (not_le.mpr h5)]

/-- C3 witness: the amended claim, applied at max_safe = 25 and w = 20. -/
theorem C3_literal_chain_matches_table_witness :
    (15 : ℚ) ≤ 25 ∧ (25 : ℚ) ≤ 35 ∧ (15 : ℚ) < 20 ∧ (20 : ℚ) ≤ 25
    ∧ is_wind_safe_for_snowblowing 25 20
        = (true, "Fair - moderate winds, exercise caution") :=
  ⟨by norm_num, by norm_num, by norm_num, by norm_num,
    (C3_literal_chain_matches_table 25 20 (by norm_num) (by norm_num)).2.2.1
      (by norm_num) (by norm_num)⟩

/-- `get_forecast_analysis` line 170: sum of the non-missing snowfall samples
of the forecast slice. -/
def forecast_accumulation (next_24_hours_snow : List (Option ℚ)) : ℚ :=
  (next_24_hours_snow.filterMap id).sum

/-- The scanning loop of `get_forecast_analysis` lines 177-183: walk the slice
with index `i`, add each non-missing sample to `cumulative`, and record `i`
the first time the cumulative sum reaches the threshold. -/
def huntLoop (threshold : ℚ) : List (Option ℚ) → ℕ → ℚ → Option ℕ → Option ℕ
  | [], _, _, hours => hours
  | s :: rest, i, cumulative, hours =>
    match s with
    | none => huntLoop threshold rest (i + 1) cumulative hours
    | some v =>
      let c := cumulative + v
      let h := if threshold ≤ c ∧ hours = none then some i else hours
      huntLoop threshold rest (i + 1) c h

/-- `hours_until_threshold` of `get_forecast_analysis`: the scan starting from
index 0, cumulative 0, no index recorded. -/
def hours_until_threshold (threshold : ℚ) (next_24_hours_snow : List (Option ℚ)) :
    Option ℕ :=
  huntLoop threshold next_24_hours_snow 0 0 none

/-- `get_forecast_analysis` line 190: `forecast_accumulation >= threshold`. -/
def will_exceed_threshold (threshold : ℚ) (next_24_hours_snow : List (Option ℚ)) :
    Bool :=
  decide (threshold ≤ forecast_accumulation next_24_hours_snow)

/-- The running sum of the non-missing samples among the first `i + 1` entries
of a slice (the quantity the specification scans for). -/
def runSum : List (Option ℚ) → ℕ → ℚ
  | [], _ => 0
  | s :: _, 0 => s.getD 0
  | s :: rest, n + 1 => s.getD 0 + runSum rest n

/-- Reference first-crossing scan: the first index at which `cum` plus the
running sum of non-missing samples reaches the threshold. -/
def specFirst (t : ℚ) : ℚ → List (Option ℚ) → Option ℕ
  | _, [] => none
  | cum, s :: rest =>
    if t ≤ cum + s.getD 0 then some 0
    else (specFirst t (cum + s.getD 0) rest).map (· + 1)

lemma huntLoop_some (t : ℚ) : ∀ (l : List (Option ℚ)) (i : ℕ) (cum : ℚ) (h : ℕ),
    huntLoop t l i cum (some h) = some h := by
  intro l
  induction l with
  | nil => intro i cum h; rfl
  | cons s rest ih =>
    intro i cum h
    cases s with
    | none => exact ih (i + 1) cum h
    | some v =>
      show huntLoop t rest (i + 1) (cum + v)
        (if t ≤ cum + v ∧ (some h : Option ℕ) = none then some i else some h)
        = some h
      rw [if_neg (fun hc => Option.noConfusion hc.2)]
      exact ih (i + 1) (cum + v) h

lemma huntLoop_eq_specFirst (t : ℚ) : ∀ (l : List (Option ℚ)) (i : ℕ) (cum : ℚ),
    cum < t → huntLoop t l i cum none = (specFirst t cum l).map (i + ·) := by
  intro l
  induction l with
  | nil => intro i cum _; rfl
  | cons s rest ih =>
    intro i cum hcum
    cases s with
    | none =>
      have hc : ¬ t ≤ cum + (none : Option ℚ).getD 0 := by
        simpa using not_le.mpr hcum
      show huntLoop t rest (i + 1) cum none = _
      rw [ih (i + 1) cum hcum, specFirst, if_neg hc]
      have hcg : cum + (none : Option ℚ).getD 0 = cum := by simp
      rw [hcg]
      cases hr : specFirst t cum rest with
      | none => rfl
      | some x =>
        show some (i + 1 + x) = some (i + (x + 1))
        exact congrArg some (by omega)
    | some v =>
      by_cases hc : t ≤ cum + v
      · have hcg : t ≤ cum + (some v : Option ℚ).getD 0 := hc
        show huntLoop t rest (i + 1) (cum + v)
          (if t ≤ cum + v ∧ (none : Option ℕ) = none then some i else none) = _
        rw [if_pos ⟨hc, rfl⟩, huntLoop_some, specFirst, if_pos hcg]
        show some i = some (i + 0)
        exact congrArg some (by omega)
      · have hcg : ¬ t ≤ cum + (some v : Option ℚ).getD 0 := hc
        show huntLoop t rest (i + 1) (cum + v)
          (if t ≤ cum + v ∧ (none : Option ℕ) = none then some i else none) = _
        rw [if_neg (fun hh => hc hh.1), ih (i + 1) (cum + v) (lt_of_not_le hc),
          specFirst, if_neg hcg]
        have hg : cum + (some v : Option ℚ).getD 0 = cum + v := rfl
        rw [hg]
        cases hr : specFirst t (cum + v) rest with
        | none => rfl
        | some x =>
          show some (i + 1 + x) = some (i + (x + 1))
          exact congrArg some (by omega)

lemma specFirst_some (t : ℚ) : ∀ (l : List (Option ℚ)) (cum : ℚ) (k : ℕ),
    specFirst t cum l = some k →
    k < l.length ∧ t ≤ cum + runSum l k ∧ ∀ j, j < k → cum + runSum l j < t := by
  intro l
  induction l with
  | nil =>
    intro cum k h
    exact Option.noConfusion h
  | cons s rest ih =>
    intro cum k h
    rw [specFirst] at h
    by_cases hc : t ≤ cum + s.getD 0
    · rw [if_pos hc] at h
      obtain rfl : (0 : ℕ) = k := Option.some_inj.mp h
      refine ⟨Nat.succ_pos _, ?_, fun j hj => absurd hj (Nat.not_lt_zero j)⟩
      show t ≤ cum + runSum (s :: rest) 0
      exact hc
    · rw [if_neg hc] at h
      cases hr : specFirst t (cum + s.getD 0) rest with
      | none => rw [hr] at h; exact Option.noConfusion h
      | some m =>
        rw [hr] at h
        obtain rfl : m + 1 = k := Option.some_inj.mp h
        obtain ⟨h1, h2, h3⟩ := ih (cum + s.getD 0) m hr
        refine ⟨Nat.succ_lt_succ h1, ?_, ?_⟩
        · show t ≤ cum + runSum (s :: rest) (m + 1)
          have heq : cum + runSum (s :: rest) (m + 1)
              = cum + s.getD 0 + runSum rest m := by
            show cum + (s.getD 0 + runSum rest m) = _
            ring
          rw [heq]
          exact h2
        · intro j hj
          cases j with
          | zero =>
            show cum + runSum (s :: rest) 0 < t
            exact lt_of_not_le hc
          | succ j2 =>
            have hj2 := h3 j2 (Nat.lt_of_succ_lt_succ hj)
            show cum + runSum (s :: rest) (j2 + 1) < t
            have heq : cum + runSum (s :: rest) (j2 + 1)
                = cum + s.getD 0 + runSum rest j2 := by
              show cum + (s.getD 0 + runSum rest j2) = _
              ring
            rw [heq]
            exact hj2

lemma specFirst_none (t : ℚ) : ∀ (l : List (Option ℚ)) (cum : ℚ),
    specFirst t cum l = none → ∀ i, i < l.length → cum + runSum l i < t := by
  intro l
  induction l with
  | nil =>
    intro cum _ i hi
    exact absurd hi (Nat.not_lt_zero i)
  | cons s rest ih =>
    intro cum h i hi
    rw [specFirst] at h
    by_cases hc : t ≤ cum + s.getD 0
    · rw [if_pos hc] at h
      exact Option.noConfusion h
    · rw [if_neg hc] at h
      have hrn : specFirst t (cum + s.getD 0) rest = none := by
        cases hr : specFirst t (cum + s.getD 0) rest with
        | none => rfl
        | some m => rw [hr] at h; exact Option.noConfusion h
      cases i with
      | zero =>
        show cum + runSum (s :: rest) 0 < t
        exact lt_of_not_le hc
      | succ n =>
        have hn := ih (cum + s.getD 0) hrn n (Nat.lt_of_succ_lt_succ hi)
        show cum + runSum (s :: rest) (n + 1) < t
        have heq : cum + runSum (s :: rest) (n + 1)
            = cum + s.getD 0 + runSum rest n := by
          show cum + (s.getD 0 + runSum rest n) = _
          ring
        rw [heq]
        exact hn

lemma filterMap_id_cons_sum (s : Option ℚ) (rest : List (Option ℚ)) :
    ((s :: rest).filterMap id).sum = s.getD 0 + (rest.filterMap id).sum := by
  cases s <;> simp

lemma specFirst_none_total (t : ℚ) : ∀ (l : List (Option ℚ)) (cum : ℚ),
    cum < t → specFirst t cum l = none → cum + (l.filterMap id).sum < t := by
  intro l
  induction l with
  | nil =>
    intro cum hcum _
    simpa using hcum
  | cons s rest ih =>
    intro cum hcum h
    rw [specFirst] at h
    by_cases hc : t ≤ cum + s.getD 0
    · rw [if_pos hc] at h
      exact Option.noConfusion h
    · rw [if_neg hc] at h
      have hrn : specFirst t (cum + s.getD 0) rest = none := by
        cases hr : specFirst t (cum + s.getD 0) rest with
        | none => rfl
        | some m => rw [hr] at h; exact Option.noConfusion h
      have := ih (cum + s.getD 0) (lt_of_not_le hc) hrn
      rw [filterMap_id_cons_sum]
      linarith

lemma runSum_le_sum : ∀ (l : List (Option ℚ)),
    (∀ x ∈ l.filterMap id, 0 ≤ x) → ∀ i, runSum l i ≤ (l.filterMap id).sum := by
  intro l
  induction l with
  | nil =>
    intro _ i
    simp [runSum]
  | cons s rest ih =>
    intro hpos i
    have hrest : ∀ x ∈ rest.filterMap id, 0 ≤ x := by
      intro x hx
      apply hpos
      cases s <;> simp [hx]
    have hsum0 : 0 ≤ (rest.filterMap id).sum := List.sum_nonneg hrest
    cases i with
    | zero =>
      rw [filterMap_id_cons_sum]
      show s.getD 0 ≤ s.getD 0 + (rest.filterMap id).sum
      linarith
    | succ n =>
      rw [filterMap_id_cons_sum]
      show s.getD 0 + runSum rest n ≤ s.getD 0 + (rest.filterMap id).sum
      have := ih hrest n
      linarith

/-- C4: for a forecast slice of at most 24 samples and a positive threshold
(the configuration guarantees a positive accumulation threshold),
`hours_until_threshold` is the first index at which the running sum of
non-missing snowfall reaches or exceeds the threshold, is `none` when the
running sum never reaches it within the slice, lies in [0, 24) whenever
present, and equals 3 on all-0.5 samples with threshold 2. -/
theorem C4_hours_until_threshold (t : ℚ) (slice : List (Option ℚ))
    (ht : 0 < t) (hlen : slice.length ≤ 24) :
    (∀ i, hours_until_threshold t slice = some i →
        i < 24 ∧ t ≤ runSum slice i ∧ ∀ j, j < i → runSum slice j < t)
    ∧ (hours_until_threshold t slice = none →
        ∀ i, i < slice.length → runSum slice i < t)
    ∧ hours_until_threshold 2 (List.replicate 24 (some (1/2 : ℚ))) = some 3 := by
  have hrun : hours_until_threshold t slice = (specFirst t 0 slice).map (0 + ·) :=
    huntLoop_eq_specFirst t slice 0 0 ht
  have hmap : (specFirst t 0 slice).map (0 + ·) = specFirst t 0 slice := by
    cases specFirst t 0 slice <;> simp
  refine ⟨?_, ?_, ?_⟩
  · intro i hi
    rw [hrun, hmap] at hi
    obtain ⟨h1, h2, h3⟩ := specFirst_some t slice 0 i hi
    exact ⟨lt_of_lt_of_le h1 hlen, by simpa using h2,
      fun j hj => by simpa using h3 j hj⟩
  · intro hnone i hi
    rw [hrun, hmap] at hnone
    simpa using specFirst_none t slice 0 hnone i hi
  · norm_num [hours_until_threshold, huntLoop, List.replicate]
    simp

/-- C4 witness: the theorem applied to four all-1.0 samples with threshold 2. -/
theorem C4_hours_until_threshold_witness :
    ((0 : ℚ) < 2 ∧ (List.replicate 4 (some (1 : ℚ))).length ≤ 24)
    ∧ (∀ i, hours_until_threshold 2 (List.replicate 4 (some (1 : ℚ))) = some i →
        i < 24 ∧ 2 ≤ runSum (List.replicate 4 (some (1 : ℚ))) i
          ∧ ∀ j, j < i → runSum (List.replicate 4 (some (1 : ℚ))) j < 2) :=
  ⟨⟨by norm_num, by decide⟩,
    (C4_hours_until_threshold 2 (List.replicate 4 (some (1 : ℚ)))
      (by norm_num) (by decide)).1⟩

/-- C10: for a positive threshold (guaranteed by the configuration) and a
slice whose non-missing samples are all non-negative, the forecast-total
comparison and the first-crossing scan agree: `will_exceed_threshold` is true
exactly when `hours_until_threshold` is present. -/
theorem C10_exceed_iff_first_crossing (t : ℚ) (slice : List (Option ℚ))
    (ht : 0 < t) (hpos : ∀ x ∈ slice.filterMap id, 0 ≤ x) :
    (will_exceed_threshold t slice = true ↔ hours_until_threshold t slice ≠ none) := by
  have hrun : hours_until_threshold t slice = (specFirst t 0 slice).map (0 + ·) :=
    huntLoop_eq_specFirst t slice 0 0 ht
  constructor
  · intro hw hnone
    rw [hrun] at hnone
    have hsf : specFirst t 0 slice = none := by
      cases hh : specFirst t 0 slice with
      | none => rfl
      | some k => rw [hh] at hnone; simp at hnone
    have htot := specFirst_none_total t slice 0 ht hsf
    have hge : t ≤ forecast_accumulation slice := by
      simpa [will_exceed_threshold] using hw
    unfold forecast_accumulation at hge
    linarith
  · intro hne
    cases hh : specFirst t 0 slice with
    | none => rw [hrun, hh] at hne; simp at hne
    | some k =>
      obtain ⟨h1, h2, _⟩ := specFirst_some t slice 0 k hh
      have h4 := runSum_le_sum slice hpos k
      simp only [will_exceed_threshold, forecast_accumulation, decide_eq_true_iff]
      linarith

/-- C10 witness: the theorem applied to the slice [some 1] with threshold 1. -/
theorem C10_exceed_iff_first_crossing_witness :
    ((0 : ℚ) < 1 ∧ ∀ x ∈ ([some 1] : List (Option ℚ)).filterMap id, (0 : ℚ) ≤ x)
    ∧ (will_exceed_threshold 1 [some 1] = true
        ↔ hours_until_threshold 1 [some 1] ≠ none) :=
  ⟨⟨by norm_num, by decide⟩,
    C10_exceed_iff_first_crossing 1 [some 1] (by norm_num) (by decide)⟩

/-- One subscription step of `SnowblowerBot.check_alerts` on the dispatch
success path: `if should_alert and not state: dispatch and set the state;
elif not should_alert and state: clear the state`.  Returns the dispatch flag
and the new armed state. -/
def latchStep (should_alert armed : Bool) : Bool × Bool :=
  if should_alert && !armed then (true, true)
  else if !should_alert && armed then (false, false)
  else (false, armed)

/-- The latch run over a sequence of ticks: the dispatch flag of every tick. -/
def latchRun (armed : Bool) : List Bool → List Bool
  | [] => []
  | t :: ts => (latchStep t armed).1 :: latchRun (latchStep t armed).2 ts

/-- The dispatch flag of tick `n` when the latch starts UNARMED. -/
def dispatchAt (ts : List Bool) (n : ℕ) : Bool :=
  (latchRun false ts).getD n false

/-- The shouldAlert value of the tick before tick `n` (the initial armed state
for tick 0). -/
def prevTick (a : Bool) (ts : List Bool) : ℕ → Bool
  | 0 => a
  | n + 1 => ts.getD n false

lemma latchStep_fst (a s : Bool) : (latchStep a s).1 = (a && !s) := by
  cases a <;> cases s <;> rfl

lemma latchStep_snd (a s : Bool) : (latchStep a s).2 = a := by
  cases a <;> cases s <;> rfl

lemma latchRun_getD : ∀ (ts : List Bool) (a : Bool) (n : ℕ),
    (latchRun a ts).getD n false = (ts.getD n false && !(prevTick a ts n)) := by
  intro ts
  induction ts with
  | nil =>
    intro a n
    cases n <;> simp [latchRun, prevTick]
  | cons t ts ih =>
    intro a n
    cases n with
    | zero =>
      show (latchStep t a).1 = ((t :: ts).getD 0 false && !(prevTick a (t :: ts) 0))
      rw [latchStep_fst]
      rfl
    | succ n =>
      show (latchRun (latchStep t a).2 ts).getD n false = _
      rw [latchStep_snd, ih t n]
      cases n <;> rfl

lemma getD_of_mem_get? : ∀ (l : List Bool) (n : ℕ) (b : Bool),
    l.get? n = some b → ∀ d, l.getD n d = b := by
  intro l
  induction l with
  | nil => intro n b h _; exact Option.noConfusion h
  | cons x xs ih =>
    intro n b h d
    cases n with
    | zero => exact Option.some_inj.mp h
    | succ m => exact ih m b h d

lemma getD_of_ge : ∀ (l : List Bool) (n : ℕ) (d : Bool),
    l.length ≤ n → l.getD n d = d := by
  intro l
  induction l with
  | nil => intro n d _; cases n <;> rfl
  | cons x xs ih =>
    intro n d h
    cases n with
    | zero => exact absurd h (by simp)
    | succ m => exact ih m d (Nat.le_of_succ_le_succ h)

lemma get?_none_of_ge : ∀ (l : List Bool) (n : ℕ), l.length ≤ n → l.get? n = none := by
  intro l
  induction l with
  | nil => intro n _; cases n <;> rfl
  | cons x xs ih =>
    intro n h
    cases n with
    | zero => exact absurd h (by simp)
    | succ m => exact ih m (Nat.le_of_succ_le_succ h)

lemma get?_eq_getD : ∀ (l : List Bool) (n : ℕ),
    n < l.length → l.get? n = some (l.getD n false) := by
  intro l
  induction l with
  | nil => intro n h; exact absurd h (Nat.not_lt_zero n)
  | cons x xs ih =>
    intro n h
    cases n with
    | zero => rfl
    | succ m => exact ih m (Nat.lt_of_succ_lt_succ h)

/-- C2: the alert latch of `check_alerts`: a tick dispatches exactly when the
latch is UNARMED and shouldAlert holds; a dispatch arms the latch; an ARMED
latch with shouldAlert still true stays silent; shouldAlert false resets an
ARMED latch silently; over any tick sequence starting UNARMED, two dispatches
are separated by a shouldAlert-false tick (at most one dispatch per contiguous
episode), and after a false tick a true tick dispatches again. -/
theorem C2_alert_latch :
    (∀ alert armed, ((latchStep alert armed).1 = true ↔ (armed = false ∧ alert = true)))
    ∧ (∀ alert armed, (latchStep alert armed).1 = true → (latchStep alert armed).2 = true)
    ∧ ((latchStep true true).1 = false)
    ∧ (latchStep false true = (false, false))
    ∧ (∀ ts i j, i < j → dispatchAt ts i = true → dispatchAt ts j = true →
        ∃ k, i ≤ k ∧ k < j ∧ ts.get? k = some false)
    ∧ (∀ ts k, ts.get? k = some false → ts.get? (k + 1) = some true →
        dispatchAt ts (k + 1) = true) := by
  refine ⟨by decide, by decide, by decide, by decide, ?_, ?_⟩
  · intro ts i j hij hdi hdj
    have hj : j < ts.length := by
      by_contra hge
      push_neg at hge
      rw [dispatchAt, latchRun_getD, getD_of_ge ts j false hge] at hdj
      simp at hdj
    obtain ⟨m, rfl⟩ : ∃ m, j = m + 1 := ⟨j - 1, by omega⟩
    have hprev : ts.getD m false = false := by
      rw [dispatchAt, latchRun_getD] at hdj
      cases hgm : ts.getD m false
      · rfl
      · rw [show prevTick false ts (m + 1) = ts.getD m false from rfl, hgm] at hdj
        simp at hdj
    have hm : m < ts.length := by omega
    exact ⟨m, by omega, by omega, by rw [get?_eq_getD ts m hm, hprev]⟩
  · intro ts k h1 h2
    have e1 : ts.getD (k + 1) false = true := getD_of_mem_get? ts (k + 1) true h2 false
    have e0 : ts.getD k false = false := getD_of_mem_get? ts k false h1 false
    rw [dispatchAt, latchRun_getD, e1,
      show prevTick false ts (k + 1) = ts.getD k false from rfl, e0]
    rfl

/-- C2 witness: the latch theorem applied to the tick sequence
[true, true, false, true], whose dispatches are ticks 0 and 3. -/
theorem C2_alert_latch_witness :
    (∃ k, 0 ≤ k ∧ k < 3 ∧ ([true, true, false, true] : List Bool).get? k = some false)
    ∧ dispatchAt [true, true, false, true] 3 = true :=
  ⟨C2_alert_latch.2.2.2.2.1 [true, true, false, true] 0 3 (by omega)
      (by decide) (by decide),
    C2_alert_latch.2.2.2.2.2 [true, true, false, true] 2 (by decide) (by decide)⟩

/-- The weather payload fields the alert tick needs: current wind speed and
snowfall and the already-windowed trailing snowfall slice. -/
structure WeatherData where
  wind_speed : ℚ
  current_snowfall : ℚ
  past_24_snow : List (Option ℚ)

/-- Outcome of a Python call: a returned value, an ordinary Exception (caught
by an `except Exception` handler), or a SystemExit (not caught by it). -/
inductive PyFlow (α : Type) where
  | val : α → PyFlow α
  | exception : String → PyFlow α
  | systemExit : ℕ → PyFlow α
deriving DecidableEq

/-- `SnowblowerAdvisor.get_weather_data`: returns the parsed response on
success; on `requests.RequestException` it prints the error and calls
`sys.exit(1)`, raising SystemExit rather than an error the caller can
handle. -/
def get_weather_data (response : Except String WeatherData) : PyFlow WeatherData :=
  match response with
  | .ok w => .val w
  | .error _ => .systemExit 1

/-- Whether a call outcome surfaces a catchable error to its caller. -/
def surfacesCatchableError {α : Type} : PyFlow α → Bool
  | .exception _ => true
  | _ => false

/-- `self.last_alert_state.get(state_key, False)`. -/
def lookupState (st : List (String × Bool)) (k : String) : Bool :=
  ((st.find? (fun p => p.1 == k)).map (fun p => p.2)).getD false

/-- Assignment `self.last_alert_state[state_key] = v`. -/
def setState (st : List (String × Bool)) (k : String) (v : Bool) :
    List (String × Bool) :=
  if st.any (fun p => p.1 == k) then
    st.map (fun p => if p.1 == k then (k, v) else p)
  else st ++ [(k, v)]

/-- The per-subscription loop of `check_alerts` on the dispatch-success path:
returns the updated latch map and the subscription keys notified this tick. -/
def tickUpdate (should_alert : Bool) :
    List String → List (String × Bool) → List String →
    List (String × Bool) × List String
  | [], st, sent => (st, sent)
  | k :: rest, st, sent =>
    let armed := lookupState st k
    if should_alert && !armed then
      tickUpdate should_alert rest (setState st k true) (sent ++ [k])
    else if !should_alert && armed then
      tickUpdate should_alert rest (setState st k false) sent
    else tickUpdate should_alert rest st sent

/-- One tick of `SnowblowerBot.check_alerts`: fetch the weather through
`get_weather_data`; a SystemExit escapes the `except Exception` handler of the
tick, an ordinary exception is caught and ends the tick with the latch map
unchanged, and on success the per-subscription loop runs with
`should_alert = should_blow and wind_safe`. -/
def check_alerts_tick (response : Except String WeatherData)
    (accumulation_threshold max_wind_speed : ℚ) (subs : List String)
    (st : List (String × Bool)) : PyFlow (List (String × Bool) × List String) :=
  match get_weather_data response with
  | .systemExit c => .systemExit c
  | .exception _ => .val (st, [])
  | .val w =>
    let should_blow :=
      (should_snowblow accumulation_threshold w.current_snowfall w.past_24_snow).1
    let wind_safe := (is_wind_safe_for_snowblowing max_wind_speed w.wind_speed).1
    .val (tickUpdate (should_blow && wind_safe) subs st [])

/-- C6 counterexample: a failing weather fetch does not surface a catchable
FetchError to the immediate caller; `get_weather_data` terminates the process
via sys.exit(1) instead. -/
theorem C6_no_fetch_error_surfaced :
    get_weather_data (Except.error "timeout") = PyFlow.systemExit 1
    ∧ surfacesCatchableError (get_weather_data (Except.error "timeout")) = false :=
  ⟨rfl, rfl⟩

/-- C6 amended: on a fetch failure the polling tick neither dispatches nor
mutates any latch, but it does not abort cleanly either: the SystemExit raised
by `get_weather_data` passes through the `except Exception` handler of
`check_alerts` and escapes the tick. -/
theorem C6_tick_exit_on_fetch_failure (msg : String) (t mw : ℚ)
    (subs : List String) (st : List (String × Bool)) :
    check_alerts_tick (Except.error msg) t mw subs st = PyFlow.systemExit 1 := rfl
